import Mathlib

/-!
Verification of the signed-blob-service core against its specification.

Go byte strings are modelled as `List Nat` (each element one byte), fallible
Go functions as `Except GoErr`, and the mutable Postgres table as an explicit
`PostgresStorage` value threaded through the operations.  SHA-256 is
implemented in full (FIPS 180-4); the RSA-PSS primitive is modelled
symbolically: a signature value is bound to the signing key and to the digest
it was produced over, and carries the random salt, so that repeated signing
yields different bytes while verification succeeds exactly for signatures
made with the matching key over the same digest.
-/

/-- Go strings are byte sequences; a byte string is a list of byte values. -/
abbrev Bytes := List Nat


/-! ## SHA-256 (FIPS 180-4), over byte lists -/

/-- Two to the 32, the word modulus. -/
def w32 : Nat := 4294967296

/-- Rotate a 32-bit word right by n. -/
def rotr32 (n x : Nat) : Nat := (x / 2 ^ n + x % 2 ^ n * 2 ^ (32 - n)) % w32

/-- SHA-256 Ch function; bitwise not is xor with the all-ones word. -/
def shaCh (x y z : Nat) : Nat := (x &&& y) ^^^ ((x ^^^ 4294967295) &&& z)

/-- SHA-256 Maj function. -/
def shaMaj (x y z : Nat) : Nat := (x &&& y) ^^^ (x &&& z) ^^^ (y &&& z)

/-- Upper-case Sigma0. -/
def bigSigma0 (x : Nat) : Nat := rotr32 2 x ^^^ rotr32 13 x ^^^ rotr32 22 x

/-- Upper-case Sigma1. -/
def bigSigma1 (x : Nat) : Nat := rotr32 6 x ^^^ rotr32 11 x ^^^ rotr32 25 x

/-- Lower-case sigma0. -/
def smallSigma0 (x : Nat) : Nat := rotr32 7 x ^^^ rotr32 18 x ^^^ x / 2 ^ 3

/-- Lower-case sigma1. -/
def smallSigma1 (x : Nat) : Nat := rotr32 17 x ^^^ rotr32 19 x ^^^ x / 2 ^ 10

/-- The 64 SHA-256 round constants. -/
def shaK : List Nat :=
  [1116352408, 1899447441, 3049323471, 3921009573, 961987163, 1508970993,
   2453635748, 2870763221, 3624381080, 310598401, 607225278, 1426881987,
   1925078388, 2162078206, 2614888103, 3248222580, 3835390401, 4022224774,
   264347078, 604807628, 770255983, 1249150122, 1555081692, 1996064986,
   2554220882, 2821834349, 2952996808, 3210313671, 3336571891, 3584528711,
   113926993, 338241895, 666307205, 773529912, 1294757372, 1396182291,
   1695183700, 1986661051, 2177026350, 2456956037, 2730485921, 2820302411,
   3259730800, 3345764771, 3516065817, 3600352804, 4094571909, 275423344,
   430227734, 506948616, 659060556, 883997877, 958139571, 1322822218,
   1537002063, 1747873779, 1955562222, 2024104815, 2227730452, 2361852424,
   2428436474, 2756734187, 3204031479, 3329325298]

/-- Working state: the eight 32-bit hash words. -/
structure Hs where
  a : Nat
  b : Nat
  c : Nat
  d : Nat
  e : Nat
  f : Nat
  g : Nat
  h : Nat

/-- Initial hash value H0. -/
def initHs : Hs :=
  ⟨1779033703, 3144134277, 1013904242, 2773480762,
   1359893119, 2600822924, 528734635, 1541459225⟩

/-- Big-endian 4-byte groups to 32-bit words. -/
def toWords : Bytes → List Nat
  | a :: b :: c :: d :: rest => (((a * 256 + b) * 256 + c) * 256 + d) :: toWords rest
  | _ => []

/-- Extend 16 schedule words by one. -/
def scheduleStep (w : List Nat) : List Nat :=
  let n := w.length
  w ++ [(smallSigma1 (w.getD (n - 2) 0) + w.getD (n - 7) 0 +
         smallSigma0 (w.getD (n - 15) 0) + w.getD (n - 16) 0) % w32]

/-- The 64-word message schedule of one chunk. -/
def schedule (chunk : Bytes) : List Nat :=
  (List.range 48).foldl (fun w _ => scheduleStep w) (toWords chunk)

/-- One compression round with constant k and schedule word w. -/
def shaRound (s : Hs) (kw : Nat × Nat) : Hs :=
  let t1 := (s.h + bigSigma1 s.e + shaCh s.e s.f s.g + kw.1 + kw.2) % w32
  let t2 := (bigSigma0 s.a + shaMaj s.a s.b s.c) % w32
  ⟨(t1 + t2) % w32, s.a, s.b, s.c, (s.d + t1) % w32, s.e, s.f, s.g⟩

/-- Compress one 64-byte chunk into the running state. -/
def compress (s : Hs) (chunk : Bytes) : Hs :=
  let t := (shaK.zip (schedule chunk)).foldl shaRound s
  ⟨(s.a + t.a) % w32, (s.b + t.b) % w32, (s.c + t.c) % w32, (s.d + t.d) % w32,
   (s.e + t.e) % w32, (s.f + t.f) % w32, (s.g + t.g) % w32, (s.h + t.h) % w32⟩

/-- The eight big-endian bytes of a 64-bit number. -/
def be64 (n : Nat) : Bytes :=
  [n / 2 ^ 56 % 256, n / 2 ^ 48 % 256, n / 2 ^ 40 % 256, n / 2 ^ 32 % 256,
   n / 2 ^ 24 % 256, n / 2 ^ 16 % 256, n / 2 ^ 8 % 256, n % 256]

/-- SHA-256 padding: 0x80, zeros to 56 mod 64, then the bit length. -/
def shaPad (msg : Bytes) : Bytes :=
  msg ++ 128 :: List.replicate ((119 - msg.length % 64) % 64) 0 ++ be64 (8 * msg.length)

/-- Split into 64-byte chunks; the fuel bounds the number of chunks. -/
def chunksAux : Nat → Bytes → List Bytes
  | 0, _ => []
  | _ + 1, [] => []
  | fuel + 1, a :: l => (a :: l).take 64 :: chunksAux fuel ((a :: l).drop 64)

/-- Split into 64-byte chunks. -/
def chunks64 (l : Bytes) : List Bytes := chunksAux l.length l

/-- Big-endian bytes of one hash word. -/
def wordBytes (x : Nat) : Bytes :=
  [x / 2 ^ 24 % 256, x / 2 ^ 16 % 256, x / 2 ^ 8 % 256, x % 256]

/-- The digest bytes of a final state. -/
def shaDigest (s : Hs) : Bytes :=
  wordBytes s.a ++ wordBytes s.b ++ wordBytes s.c ++ wordBytes s.d ++
  wordBytes s.e ++ wordBytes s.f ++ wordBytes s.g ++ wordBytes s.h

/-- SHA-256 of a byte string, as its 32 digest bytes. -/
def sha256 (msg : Bytes) : Bytes :=
  shaDigest ((chunks64 (shaPad msg)).foldl compress initHs)

/-- The FIPS 180-4 test vector for the three-byte message abc. -/
theorem sha256_test_vector_abc : sha256 [97, 98, 99] =
    [186, 120, 22, 191, 143, 1, 207, 234, 65, 65, 64, 222, 93, 174, 34, 35,
     176, 3, 97, 163, 150, 23, 122, 156, 180, 16, 255, 97, 242, 0, 21, 173] := by
  decide

/-! ## Hex encoding (encoding/hex, lowercase) -/

/-- The lowercase hex digit for a value below 16. -/
def hexDigit (n : Nat) : Nat := if n < 10 then 48 + n else 87 + n

/-- Lowercase hex encoding of a byte string, as in hex.EncodeToString. -/
def hexEncode (bs : Bytes) : Bytes :=
  bs.foldr (fun b acc => hexDigit (b / 16) :: hexDigit (b % 16) :: acc) []

/-! ## Protobuf wire encoding of the BlobRecord message

The generated gen/blob/v1 code is not part of the sources here, so the wire
shape is modelled from the spec requirement of a fixed field order with
explicit length-prefixed encoding, matching the proto3 wire format for a
message of four string fields (uuid = 1, blob = 2, hash = 3, timestamp = 4)
in declaration order; empty fields are omitted, as proto3 omits
zero-valued scalar fields.
-/

/-- The payload that is signed: message BlobRecord of gen/blob/v1. -/
structure BlobRecord where
  uuid : Bytes
  blob : Bytes
  hash : Bytes
  timestamp : Bytes
deriving DecidableEq

/-- A stored record: message SignedBlobRecord of gen/blob/v1. -/
structure SignedBlobRecord where
  payload : BlobRecord
  signature : Bytes
deriving DecidableEq

/-- Protobuf varint: little-endian base-128 with continuation bits. -/
def varint (n : Nat) : Bytes :=
  if h : n < 128 then [n] else (n % 128 + 128) :: varint (n / 128)
termination_by n
decreasing_by
  exact Nat.div_lt_self (Nat.lt_of_lt_of_le (by decide) (Nat.le_of_not_lt h)) (by decide)

/-- One length-delimited field: tag byte, varint length, raw bytes; a
zero-valued (empty) string field is omitted entirely. -/
def protoField (tag : Nat) (v : Bytes) : Bytes :=
  if v = [] then [] else tag :: varint v.length ++ v

/-- Modelled from the spec: deterministic serialization of a BlobRecord as
produced by proto.Marshal on the missing generated message type — the four
string fields in field-number order with length-prefixed encoding. -/
def protoMarshalBlobRecord (r : BlobRecord) : Bytes :=
  protoField 10 r.uuid ++ protoField 18 r.blob ++
  protoField 26 r.hash ++ protoField 34 r.timestamp

/-! ## Go error values

Errors are modelled as an inductive: the two sentinel values of the store
package, the raw driver errors a query can surface, plain message errors
from errors.New / fmt.Errorf, and wrapping with a short description as in
fmt.Errorf with a percent-w verb. -/

/-- The error values the modelled code can produce or compare against. -/
inductive GoErr where
  /-- store.ErrBlobNotFound -/
  | blobNotFound : GoErr
  /-- store.ErrBlobExists (declared in the store package) -/
  | blobExists : GoErr
  /-- a raw lib/pq unique-constraint violation returned by ExecContext -/
  | pqUniqueViolation : GoErr
  /-- an errors.New or fmt.Errorf message error -/
  | errMsg : String → GoErr
  /-- fmt.Errorf wrapping an inner error with a short description -/
  | wrapped : String → GoErr → GoErr
deriving DecidableEq

/-- errors.Is: walk the wrap chain looking for the target value. -/
def errorsIs (e target : GoErr) : Bool :=
  match e with
  | .wrapped s inner => (GoErr.wrapped s inner == target) || errorsIs inner target
  | e => e == target

/-! ## Signer (signature package)

The RSA key pair is abstract: a key id stands for the key material, and a
matching private/public pair shares the id.  rsa.SignPSS and rsa.VerifyPSS
are modelled symbolically: a signature records the signing key, the random
salt and the digest, so repeated signing with fresh salts yields different
bytes, while verification succeeds exactly for a signature made with the
matching key over the same digest. -/

/-- The signer service: key material present when the Options are some. -/
structure RSASignerService where
  privateKey : Option Nat
  publicKey : Option Nat
deriving DecidableEq

/-- Symbolic rsa.SignPSS: the signature binds key, salt and digest. -/
def rsaSignPSS (key : Nat) (hashed : Bytes) (salt : Nat) : Bytes :=
  key :: salt :: hashed

/-- Symbolic rsa.VerifyPSS: accept exactly signatures produced with the
matching key over the same digest, whatever the salt was. -/
def rsaVerifyPSS (key : Nat) (hashed : Bytes) (sig : Bytes) : Bool :=
  match sig with
  | k :: _salt :: digest => k == key && digest == hashed
  | _ => false

/-- ComputeHash - computes the SHA-256 hash of the given blob content;
no initialisation check, pure. -/
def RSASignerService.ComputeHash (_s : RSASignerService) (blobContent : Bytes) : Bytes :=
  sha256 blobContent

/-- Sign - RSASSA-PSS over SHA-256: initialisation check, empty-input
check, hash, then the (randomised) PSS primitive with the given salt. -/
def RSASignerService.Sign (s : RSASignerService) (salt : Nat) (blobContent : Bytes) :
    Except GoErr Bytes :=
  match s.privateKey, s.publicKey with
  | some k, some _ =>
    if blobContent = [] then .error (.errMsg "blob content cannot be nil or empty")
    else .ok (rsaSignPSS k (sha256 blobContent) salt)
  | _, _ => .error (.wrapped "failed to sign content"
      (.errMsg "signer service is not properly initialised with keys"))

/-- VerifySignature - initialisation check, empty-input checks, hash, then
the PSS verification primitive with the public key. -/
def RSASignerService.VerifySignature (s : RSASignerService) (blobContent sig : Bytes) :
    Except GoErr Unit :=
  match s.privateKey, s.publicKey with
  | some _, some pk =>
    if blobContent = [] then .error (.errMsg "blob content cannot be nil or empty")
    else if sig = [] then .error (.errMsg "signature content cannot be nil or empty")
    else if rsaVerifyPSS pk (sha256 blobContent) sig then .ok ()
    else .error (.errMsg "signature verification failed using RSASSA-PSS")
  | _, _ => .error (.wrapped "signature verification failed"
      (.errMsg "signer service is not properly initialised with keys"))

/-! ## Storage (store package, Postgres adapter)

The signed_blobs table is an explicit list of rows; the uuid column is the
primary key, per the persisted schema of the spec (the migration files are
not among the sources).  Mutating operations return the new table state
together with the Go return value. -/

/-- The Postgres-backed store: the rows of the signed_blobs table. -/
structure PostgresStorage where
  rows : List SignedBlobRecord
deriving DecidableEq

/-- Row predicate: the uuid column matches. -/
def uuidMatches (u : Bytes) (row : SignedBlobRecord) : Bool :=
  row.payload.uuid == u

/-- Store - INSERT INTO signed_blobs; the primary key on uuid makes a
colliding insert fail, and ExecContext surfaces the raw driver error,
which the function returns unchanged. -/
def PostgresStorage.Store (s : PostgresStorage) (record : SignedBlobRecord) :
    PostgresStorage × Except GoErr Unit :=
  if s.rows.any (uuidMatches record.payload.uuid) then
    (s, .error .pqUniqueViolation)
  else ({ rows := s.rows ++ [record] }, .ok ())

/-- GetByUUID - SELECT ... WHERE uuid = $1; sql.ErrNoRows is mapped to
store.ErrBlobNotFound, the scanned row is returned verbatim. -/
def PostgresStorage.GetByUUID (s : PostgresStorage) (u : Bytes) :
    Except GoErr SignedBlobRecord :=
  match s.rows.find? (uuidMatches u) with
  | some row => .ok row
  | none => .error .blobNotFound

/-- Exists - SELECT EXISTS(SELECT 1 ...): the query scans the actual
presence bit into a local, but the source then returns (true, nil)
whenever the scan itself succeeded, ignoring the scanned value. -/
def PostgresStorage.Exists (s : PostgresStorage) (u : Bytes) : Except GoErr Bool :=
  let _scanned := s.rows.any (uuidMatches u)
  .ok true

/-- Delete - DELETE ... WHERE uuid = $1; when RowsAffected is zero the
function returns store.ErrBlobNotFound. -/
def PostgresStorage.Delete (s : PostgresStorage) (u : Bytes) :
    PostgresStorage × Except GoErr Unit :=
  let remaining := s.rows.filter (fun row => !uuidMatches u row)
  if s.rows.length - remaining.length = 0 then (s, .error .blobNotFound)
  else ({ rows := remaining }, .ok ())

/-! ## UUID parsing (github.com/google/uuid)

Only the canonical textual form the service itself generates is modelled:
36 bytes, dashes at offsets 8, 13, 18 and 23, hex digits elsewhere; parsing
normalises hex letters to lowercase, matching the value the uuid column
compares equal to. -/

/-- Is the byte an ASCII hex digit. -/
def isHexDigitByte (c : Nat) : Bool :=
  (48 ≤ c && c ≤ 57) || (97 ≤ c && c ≤ 102) || (65 ≤ c && c ≤ 70)

/-- Lowercase an ASCII uppercase hex letter, leave other bytes alone. -/
def lowerHexByte (c : Nat) : Nat := if 65 ≤ c && c ≤ 70 then c + 32 else c

/-- Well-formedness of the canonical 8-4-4-4-12 textual uuid. -/
def validUUIDBytes (s : Bytes) : Bool :=
  s.length == 36 &&
  (List.range 36).all fun i =>
    if i == 8 || i == 13 || i == 18 || i == 23 then s.getD i 0 == 45
    else isHexDigitByte (s.getD i 0)

/-- uuid.Parse restricted to the canonical form, returning the normalised
lowercase textual value. -/
def uuidParse (s : Bytes) : Except GoErr Bytes :=
  if validUUIDBytes s then .ok (s.map lowerHexByte)
  else .error (.errMsg "invalid UUID length or format")

/-- A canonical uuid string: well-formed and already lowercase, as every
value produced by uuid.New().String() is. -/
def isCanonicalUUID (s : Bytes) : Bool :=
  validUUIDBytes s && s.map lowerHexByte == s

/-! ## Service (api/v1) -/

/-- We only allow blobs of size 256 Kilobytes. -/
def maxBlobSize : Nat := 256 * 1024

/-- StoreBlob - validates the content, hashes it, builds the canonical
payload, serialises it, signs the bytes and persists the signed record.
The generated uuid string, the formatted timestamp and the PSS salt enter
as arguments, making the ambient nondeterminism explicit; proto.Marshal
cannot fail on this message, so its error branch has no counterpart. -/
def StoreBlob (s : RSASignerService) (st : PostgresStorage)
    (uuidStr timestamp : Bytes) (salt : Nat) (blob : Bytes) :
    PostgresStorage × Except GoErr Bytes :=
  if blob = [] then (st, .error (.errMsg "blob content cannot be empty"))
  else if blob.length > maxBlobSize then
    (st, .error (.errMsg "blob content exceeds maximum size of 262144 bytes"))
  else
    let hash := s.ComputeHash blob
    if hash = [] then (st, .error (.errMsg "failed to compute hash for blob content"))
    else
      let encodedHashStr := hexEncode hash
      let payloadToBeSigned : BlobRecord :=
        { uuid := uuidStr, blob := blob, hash := encodedHashStr, timestamp := timestamp }
      let serialisedPayload := protoMarshalBlobRecord payloadToBeSigned
      match s.Sign salt serialisedPayload with
      | .error e => (st, .error (.wrapped "failed to sign payload" e))
      | .ok sig =>
        let recordWithSignature : SignedBlobRecord :=
          { payload := { uuid := uuidStr, blob := blob, hash := encodedHashStr,
                         timestamp := timestamp },
            signature := sig }
        match st.Store recordWithSignature with
        | (st2, .error e) => (st2, .error (.wrapped "failed to store signed record" e))
        | (st2, .ok _) => (st2, .ok uuidStr)

/-- The response of GetSignedBlob: payload fields and signature. -/
structure GetSignedBlobResponse where
  payload : BlobRecord
  signature : Bytes
deriving DecidableEq

/-- GetSignedBlob - empty check, uuid.Parse, store lookup distinguishing
ErrBlobNotFound via errors.Is, empty-signature check, then the response
rebuilt field by field from the stored row. -/
def GetSignedBlob (st : PostgresStorage) (uuidReq : Bytes) :
    Except GoErr GetSignedBlobResponse :=
  if uuidReq = [] then .error (.errMsg "UUID cannot be empty")
  else
    match uuidParse uuidReq with
    | .error e => .error (.wrapped "invalid UUID format" e)
    | .ok u =>
      match st.GetByUUID u with
      | .error e =>
        if errorsIs e .blobNotFound then .error (.wrapped "blob not found" e)
        else .error (.wrapped "failed to retrieve blob" e)
      | .ok blobRow =>
        if blobRow.signature = [] then .error (.errMsg "signature is empty")
        else .ok { payload := { uuid := blobRow.payload.uuid,
                                hash := blobRow.payload.hash,
                                blob := blobRow.payload.blob,
                                timestamp := blobRow.payload.timestamp },
                   signature := blobRow.signature }

/-! ## Offline verifier (cmd/client/pkg verify) -/

/-- The metaData JSON of the client: uuid, hash, timestamp. -/
structure MetaData where
  uuid : Bytes
  hash : Bytes
  timeStamp : Bytes
deriving DecidableEq

/-- The payload bytes the verifier rebuilds from the metadata and the
local content file, exactly as the verify command marshals them. -/
def verifierPayloadBytes (meta : MetaData) (blobBytes : Bytes) : Bytes :=
  protoMarshalBlobRecord
    { uuid := meta.uuid, blob := blobBytes, hash := meta.hash,
      timestamp := meta.timeStamp }

/-- verifyCommand - the verification algorithm from the point where the
three artifact files are read and the signature is base64-decoded:
recompute the content hash and compare it as hex against the metadata,
failing on mismatch; then rebuild the payload, marshal it and check the
PSS signature with the supplied public key. -/
def verifyCommand (pubKey : Nat) (meta : MetaData) (blobBytes sig : Bytes) :
    Except GoErr Unit :=
  let computedHash := hexEncode (sha256 blobBytes)
  if computedHash ≠ meta.hash then .error (.errMsg "hash mismatch")
  else
    let payloadBytes := verifierPayloadBytes meta blobBytes
    if rsaVerifyPSS pubKey (sha256 payloadBytes) sig then .ok ()
    else .error (.errMsg "signature verification failed")

/-- The payload bytes the service signs in StoreBlob, as a function of the
four field values it assembles. -/
def serviceSignedPayloadBytes (uuidStr blob hashStr timestamp : Bytes) : Bytes :=
  protoMarshalBlobRecord
    { uuid := uuidStr, blob := blob, hash := hashStr, timestamp := timestamp }

/-! ## Helper lemmas -/

/-- The digest of any final state is 32 bytes. -/
theorem shaDigest_length (s : Hs) : (shaDigest s).length = 32 := by
  simp [shaDigest, wordBytes]

/-- SHA-256 always yields a 32-byte digest. -/
theorem sha256_length (msg : Bytes) : (sha256 msg).length = 32 :=
  shaDigest_length _

/-- SHA-256 never yields the empty byte string. -/
theorem sha256_ne_nil (msg : Bytes) : sha256 msg ≠ [] := by
  intro h
  have h32 := sha256_length msg
  rw [h] at h32
  simp at h32

/-- A record with nonempty content serialises to nonempty bytes. -/
theorem protoMarshal_ne_nil (r : BlobRecord) (h : r.blob ≠ []) :
    protoMarshalBlobRecord r ≠ [] := by
  simp [protoMarshalBlobRecord, protoField, h]

/-- Hex encoding of a nonempty byte string is nonempty. -/
theorem hexEncode_ne_nil (bs : Bytes) (h : bs ≠ []) : hexEncode bs ≠ [] := by
  cases bs with
  | nil => exact absurd rfl h
  | cons b t => simp [hexEncode]

/-- A canonical uuid string parses to itself. -/
theorem uuidParse_canonical (s : Bytes) (h : isCanonicalUUID s = true) :
    uuidParse s = .ok s := by
  have h1 : validUUIDBytes s = true := by
    have := And.left (by simpa [isCanonicalUUID] using h)
    exact this
  have h2 : s.map lowerHexByte = s := by
    have := And.right (by simpa [isCanonicalUUID] using h)
    exact this
  simp [uuidParse, h1, h2]

/-- A well-formed uuid string has 36 bytes. -/
theorem validUUID_length (s : Bytes) (h : validUUIDBytes s = true) :
    s.length = 36 := by
  have := And.left (by simpa [validUUIDBytes] using h)
  exact this

/-- A canonical uuid string is nonempty. -/
theorem canonicalUUID_ne_nil (s : Bytes) (h : isCanonicalUUID s = true) :
    s ≠ [] := by
  intro hnil
  have h1 : validUUIDBytes s = true := by
    have := And.left (by simpa [isCanonicalUUID] using h)
    exact this
  have := validUUID_length s h1
  rw [hnil] at this
  simp at this

/-- find? over an appended singleton none of whose predecessors match. -/
theorem find?_append_singleton {α : Type} (l : List α) (p : α → Bool) (x : α)
    (hl : ∀ y ∈ l, p y = false) (hx : p x = true) :
    (l ++ [x]).find? p = some x := by
  induction l with
  | nil => simp [List.find?, hx]
  | cons a t ih =>
    have ha : p a = false := hl a (List.mem_cons_self a t)
    simp only [List.cons_append, List.find?, ha]
    exact ih (fun y hy => hl y (List.mem_cons_of_mem a hy))

/-- Decidable equality of Except values, for evaluating the modelled
operations on concrete inputs. -/
instance {ε α : Type} [DecidableEq ε] [DecidableEq α] : DecidableEq (Except ε α) :=
  fun x y =>
  match x, y with
  | .error a, .error b =>
    if h : a = b then .isTrue (by rw [h])
    else .isFalse (by intro hc; cases hc; exact h rfl)
  | .ok a, .ok b =>
    if h : a = b then .isTrue (by rw [h])
    else .isFalse (by intro hc; cases hc; exact h rfl)
  | .error _, .ok _ => .isFalse (by intro hc; cases hc)
  | .ok _, .error _ => .isFalse (by intro hc; cases hc)

/-! ## Concrete sample data for closed statements -/

/-- The canonical uuid string 550e8400-e29b-41d4-a716-446655440000. -/
def sampleUUID : Bytes :=
  [53, 53, 48, 101, 56, 52, 48, 48, 45, 101, 50, 57, 98, 45, 52, 49, 100, 52,
   45, 97, 55, 49, 54, 45, 52, 52, 54, 54, 53, 53, 52, 52, 48, 48, 48, 48]

/-- The timestamp string 2025-01-01T00:00:00Z. -/
def sampleTimestamp : Bytes :=
  [50, 48, 50, 53, 45, 48, 49, 45, 48, 49, 84, 48, 48, 58, 48, 48, 58, 48, 48, 90]

/-- A stored row under the sample uuid. -/
def sampleRecord : SignedBlobRecord :=
  { payload := { uuid := sampleUUID, blob := [104, 105], hash := [97, 98],
                 timestamp := sampleTimestamp },
    signature := [1, 2, 3] }

/-! ## Claims -/

/-- C1: the storage Exists operation must return true exactly when a record
with the identifier is present; the code instead returns (true, nil)
whenever the scan succeeds, so on an empty table, where the identifier is
certainly absent, it still reports true — the open-question bug of the
spec reproduced.  Evaluation of the code at the failing input. -/
theorem exists_reports_true_for_absent_id :
    PostgresStorage.Exists { rows := [] } sampleUUID = .ok true ∧
    List.any ([] : List SignedBlobRecord) (uuidMatches sampleUUID) = false := by
  exact ⟨rfl, rfl⟩

/-- C2: the bytes the service signs in StoreBlob and the bytes the offline
verifier marshals for checking are identical whenever the four field
values agree — both sides serialise through the one deterministic
fixed-field-order encoding of the BlobRecord message. -/
theorem canonical_serialization_deterministic
    (uuidStr blob hashStr timestamp : Bytes) (meta : MetaData) (content : Bytes)
    (h1 : meta.uuid = uuidStr) (h2 : content = blob)
    (h3 : meta.hash = hashStr) (h4 : meta.timeStamp = timestamp) :
    serviceSignedPayloadBytes uuidStr blob hashStr timestamp =
      verifierPayloadBytes meta content := by
  subst h1 h2 h3 h4
  rfl

/-- Witness for C2 at concrete field values. -/
theorem canonical_serialization_deterministic_witness :
    serviceSignedPayloadBytes sampleUUID [104, 105] [97, 98] sampleTimestamp =
      verifierPayloadBytes
        { uuid := sampleUUID, hash := [97, 98], timeStamp := sampleTimestamp }
        [104, 105] :=
  canonical_serialization_deterministic sampleUUID [104, 105] [97, 98]
    sampleTimestamp _ _ rfl rfl rfl rfl

/-- C7 counterexample: deleting the sample record a second time does not
yield the same outcome as the first delete — the first returns success,
the second returns ErrBlobNotFound. -/
theorem delete_twice_outcomes_differ :
    (PostgresStorage.Delete { rows := [sampleRecord] } sampleUUID).2 = .ok () ∧
    (PostgresStorage.Delete
       (PostgresStorage.Delete { rows := [sampleRecord] } sampleUUID).1
       sampleUUID).2 = .error .blobNotFound ∧
    (Except.error GoErr.blobNotFound : Except GoErr Unit) ≠ .ok () := by
  refine ⟨by decide, by decide, by decide⟩

/-- C7 amended: delete is idempotent in its effect on the store — after a
successful delete, a second delete of the same identifier leaves the store
exactly as the first left it, but reports ErrBlobNotFound rather than
repeating the success; and delete of an identifier with no record fails
with ErrBlobNotFound leaving the store unchanged. -/
theorem delete_idempotent_effect
    (st : PostgresStorage) (u : Bytes)
    (h : (PostgresStorage.Delete st u).2 = .ok ()) :
    PostgresStorage.Delete (PostgresStorage.Delete st u).1 u =
      ((PostgresStorage.Delete st u).1, .error .blobNotFound) ∧
    ∀ st2 : PostgresStorage, st2.rows.any (uuidMatches u) = false →
      PostgresStorage.Delete st2 u = (st2, .error .blobNotFound) := by
  constructor
  · by_cases hc : st.rows.length - (st.rows.filter (fun row => !uuidMatches u row)).length = 0
    · simp [PostgresStorage.Delete, hc] at h
    · have hst1 : (PostgresStorage.Delete st u).1 =
          { rows := st.rows.filter (fun row => !uuidMatches u row) } := by
        simp [PostgresStorage.Delete, hc]
      rw [hst1]
      have hff : (st.rows.filter (fun row => !uuidMatches u row)).filter
          (fun row => !uuidMatches u row) =
          st.rows.filter (fun row => !uuidMatches u row) :=
        List.filter_eq_self.mpr (fun a ha => (List.mem_filter.mp ha).2)
      simp [PostgresStorage.Delete, hff]
  · intro st2 h2
    have hall : ∀ row ∈ st2.rows, (!uuidMatches u row) = true := by
      intro row hrow
      have := List.any_eq_false.mp h2 row hrow
      simp [this]
    have : st2.rows.filter (fun row => !uuidMatches u row) = st2.rows :=
      List.filter_eq_self.mpr hall
    simp [PostgresStorage.Delete, this]

/-- Witness for C7 amended at the sample store. -/
theorem delete_idempotent_effect_witness :
    PostgresStorage.Delete
        (PostgresStorage.Delete { rows := [sampleRecord] } sampleUUID).1
        sampleUUID =
      ((PostgresStorage.Delete { rows := [sampleRecord] } sampleUUID).1,
        .error .blobNotFound) :=
  (delete_idempotent_effect { rows := [sampleRecord] } sampleUUID (by decide)).1

/-- C8: on an identifier collision the Store operation must fail with the
distinct AlreadyExists condition; the code instead returns the raw driver
unique-violation error, which the declared sentinel store.ErrBlobExists
never equals under errors.Is — evaluation at the failing input. -/
theorem store_collision_error_not_blob_exists :
    (PostgresStorage.Store { rows := [sampleRecord] }
        { payload := { uuid := sampleUUID, blob := [106], hash := [99],
                       timestamp := sampleTimestamp },
          signature := [7] }).2 = .error .pqUniqueViolation ∧
    errorsIs .pqUniqueViolation .blobExists = false ∧
    (GoErr.pqUniqueViolation ≠ GoErr.blobExists) := by
  refine ⟨by decide, by decide, by decide⟩

/-- C9: ComputeHash yields a 32-byte digest for every input, the empty
string included, and never an empty slice, so the StoreBlob branch taken
when the computed hash is empty can never produce its error. -/
theorem compute_hash_32_bytes_branch_unreachable
    (s s2 : RSASignerService) (msg : Bytes) (st : PostgresStorage)
    (uuidStr timestamp blob : Bytes) (salt : Nat) :
    (s.ComputeHash msg).length = 32 ∧ s.ComputeHash msg ≠ [] ∧
    (StoreBlob s2 st uuidStr timestamp salt blob).2 ≠
      .error (.errMsg "failed to compute hash for blob content") := by
  refine ⟨sha256_length msg, sha256_ne_nil msg, ?_⟩
  simp only [StoreBlob]
  split
  · simp
  · split
    · simp
    · split
      · next hhash => exact absurd hhash (sha256_ne_nil blob)
      · split
        · simp
        · split
          · simp
          · simp

/-- Witness for C9 at concrete inputs. -/
theorem compute_hash_32_bytes_branch_unreachable_witness :
    (RSASignerService.ComputeHash { privateKey := some 0, publicKey := some 0 } []).length = 32 ∧
    RSASignerService.ComputeHash { privateKey := some 0, publicKey := some 0 } [] ≠ [] ∧
    (StoreBlob { privateKey := none, publicKey := none } { rows := [] }
        sampleUUID sampleTimestamp 0 [104]).2 ≠
      .error (.errMsg "failed to compute hash for blob content") :=
  compute_hash_32_bytes_branch_unreachable
    { privateKey := some 0, publicKey := some 0 }
    { privateKey := none, publicKey := none } [] { rows := [] }
    sampleUUID sampleTimestamp [104] 0

/-- C10: a successful GetSignedBlob response always carries a nonempty
signature, and a stored row whose signature is empty makes GetSignedBlob
return the signature-is-empty error instead of a response. -/
theorem get_signed_blob_signature_nonempty
    (st : PostgresStorage) (uuidReq : Bytes) :
    (∀ resp, GetSignedBlob st uuidReq = .ok resp → resp.signature ≠ []) ∧
    (∀ u row, uuidParse uuidReq = .ok u → st.GetByUUID u = .ok row →
      row.signature = [] →
      GetSignedBlob st uuidReq = .error (.errMsg "signature is empty")) := by
  constructor
  · intro resp hok
    simp only [GetSignedBlob] at hok
    split at hok
    · cases hok
    · split at hok
      · cases hok
      · split at hok
        · split at hok
          · cases hok
          · cases hok
        · split at hok
          · cases hok
          · next hsig =>
            cases hok
            simpa using hsig
  · intro u row hparse hget hsig
    have hne : uuidReq ≠ [] := by
      intro hnil
      rw [hnil] at hparse
      have : validUUIDBytes [] = false := by decide
      simp [uuidParse, this] at hparse
    simp only [GetSignedBlob, if_neg hne, hparse, hget, if_pos hsig]

/-- A stored row with an empty signature, under the sample uuid. -/
def emptySigRecord : SignedBlobRecord :=
  { payload := { uuid := sampleUUID, blob := [104], hash := [97],
                 timestamp := sampleTimestamp },
    signature := [] }

/-- Witness for C10: a store holding a row with an empty signature makes
GetSignedBlob fail with the signature-is-empty error. -/
theorem get_signed_blob_signature_nonempty_witness :
    GetSignedBlob { rows := [emptySigRecord] } sampleUUID =
      .error (.errMsg "signature is empty") :=
  (get_signed_blob_signature_nonempty { rows := [emptySigRecord] } sampleUUID).2
    sampleUUID emptySigRecord (by decide) (by decide) rfl

/-- C4: on the store path, a failure of the sign step (key material
absent) or of the storage write (an identifier collision, the one failure
the modelled table can produce) makes StoreBlob return an error with the
store left exactly as it was, so no identifier is ever reported as
successfully stored. -/
theorem store_blob_failure_no_write_no_id
    (s : RSASignerService) (st : PostgresStorage)
    (uuidStr timestamp blob : Bytes) (salt : Nat)
    (h : s.privateKey = none ∨ s.publicKey = none ∨
         st.rows.any (uuidMatches uuidStr) = true) :
    ∃ e, StoreBlob s st uuidStr timestamp salt blob = (st, .error e) := by
  simp only [StoreBlob]
  split
  · exact ⟨_, rfl⟩
  · split
    · exact ⟨_, rfl⟩
    · split
      · exact ⟨_, rfl⟩
      · split
        · exact ⟨_, rfl⟩
        · next sig hsig =>
          rcases hps : s.privateKey with _ | k
          · simp [RSASignerService.Sign, hps] at hsig
          · rcases hpub : s.publicKey with _ | k2
            · simp [RSASignerService.Sign, hps, hpub] at hsig
            · have hcoll : st.rows.any (uuidMatches uuidStr) = true := by
                rcases h with h | h | h
                · rw [hps] at h; cases h
                · rw [hpub] at h; cases h
                · exact h
              split
              · next st2 e heq =>
                have h1 : st2 = st := by
                  simp [PostgresStorage.Store, hcoll] at heq
                  exact heq.1.symm
                exact ⟨_, by rw [h1]⟩
              · next st2 u heq =>
                simp [PostgresStorage.Store, hcoll] at heq

/-- Witness for C4: an uninitialised signer leaves an empty store
untouched and yields an error. -/
theorem store_blob_failure_no_write_no_id_witness :
    ∃ e, StoreBlob { privateKey := none, publicKey := none } { rows := [] }
        sampleUUID sampleTimestamp 0 [104, 105] = ({ rows := [] }, .error e) :=
  store_blob_failure_no_write_no_id { privateKey := none, publicKey := none }
    { rows := [] } sampleUUID sampleTimestamp [104, 105] 0 (Or.inl rfl)

/-- C5: the offline verifier recomputes the content hash first and on a
hex mismatch fails with the hash-mismatch error whatever signature or key
it was handed — no signature cryptography can influence that outcome —
and it reports success exactly when both the hash comparison and the PSS
signature check pass, each single failure being terminal. -/
theorem verify_hash_first_success_iff_both
    (pubKey pk2 : Nat) (meta : MetaData) (blobBytes sig sig2 : Bytes) :
    (hexEncode (sha256 blobBytes) ≠ meta.hash →
      verifyCommand pubKey meta blobBytes sig = .error (.errMsg "hash mismatch") ∧
      verifyCommand pubKey meta blobBytes sig = verifyCommand pk2 meta blobBytes sig2) ∧
    (verifyCommand pubKey meta blobBytes sig = .ok () ↔
      hexEncode (sha256 blobBytes) = meta.hash ∧
      rsaVerifyPSS pubKey (sha256 (verifierPayloadBytes meta blobBytes)) sig = true) := by
  constructor
  · intro hmis
    constructor
    · simp [verifyCommand, hmis]
    · simp [verifyCommand, hmis]
  · constructor
    · intro hok
      by_cases hmis : hexEncode (sha256 blobBytes) = meta.hash
      · refine ⟨hmis, ?_⟩
        by_cases hv : rsaVerifyPSS pubKey (sha256 (verifierPayloadBytes meta blobBytes)) sig = true
        · exact hv
        · simp [verifyCommand, hmis, hv] at hok
      · simp [verifyCommand, hmis] at hok
    · rintro ⟨hmis, hv⟩
      simp [verifyCommand, hmis, hv]

/-- Witness for C5: with an empty expected hash in the metadata the hash
comparison cannot succeed, and the verifier fails with the hash-mismatch
error for any two signatures and keys. -/
theorem verify_hash_first_success_iff_both_witness :
    verifyCommand 0 { uuid := sampleUUID, hash := [], timeStamp := sampleTimestamp }
        [104, 105] [9, 9, 9] = .error (.errMsg "hash mismatch") ∧
    verifyCommand 0 { uuid := sampleUUID, hash := [], timeStamp := sampleTimestamp }
        [104, 105] [9, 9, 9] =
      verifyCommand 7 { uuid := sampleUUID, hash := [], timeStamp := sampleTimestamp }
        [104, 105] [1] :=
  (verify_hash_first_success_iff_both 0 7
    { uuid := sampleUUID, hash := [], timeStamp := sampleTimestamp }
    [104, 105] [9, 9, 9] [1]).1
    (hexEncode_ne_nil (sha256 [104, 105]) (sha256_ne_nil [104, 105]))

/-- The success path of StoreBlob: with key material present, nonempty
in-bounds content and a fresh identifier, the record is hashed, signed and
appended, and its uuid is returned. -/
theorem storeBlob_success
    (st : PostgresStorage) (k k2 salt : Nat) (uuidStr timestamp blob : Bytes)
    (h1 : blob ≠ []) (h2 : blob.length ≤ maxBlobSize)
    (hfresh : st.rows.any (uuidMatches uuidStr) = false) :
    StoreBlob { privateKey := some k, publicKey := some k2 } st
        uuidStr timestamp salt blob =
      ({ rows := st.rows ++
          [{ payload := { uuid := uuidStr, blob := blob,
                          hash := hexEncode (sha256 blob),
                          timestamp := timestamp },
             signature := rsaSignPSS k
               (sha256 (serviceSignedPayloadBytes uuidStr blob
                 (hexEncode (sha256 blob)) timestamp)) salt }] },
       .ok uuidStr) := by
  have hsize : ¬ blob.length > maxBlobSize := not_lt.mpr h2
  have hser : protoMarshalBlobRecord
      { uuid := uuidStr, blob := blob, hash := hexEncode (sha256 blob),
        timestamp := timestamp } ≠ [] :=
    protoMarshal_ne_nil _ h1
  simp only [StoreBlob, if_neg h1, if_neg hsize, RSASignerService.ComputeHash,
    if_neg (sha256_ne_nil blob), RSASignerService.Sign, if_neg hser,
    PostgresStorage.Store, serviceSignedPayloadBytes, hfresh,
    Bool.false_eq_true, if_false]

/-- C6: a store request of exactly 262144 bytes passes validation and is
stored successfully, while any request of 262145 bytes or more is rejected
with the size validation error for every signer — so before any hashing,
signing or storage work — leaving the store unchanged. -/
theorem boundary_accept_exact_reject_above
    (st : PostgresStorage) (k k2 salt : Nat) (uuidStr timestamp blob big : Bytes) :
    (blob.length = 262144 → st.rows.any (uuidMatches uuidStr) = false →
      (StoreBlob { privateKey := some k, publicKey := some k2 } st
          uuidStr timestamp salt blob).2 = .ok uuidStr) ∧
    (∀ s : RSASignerService, 262145 ≤ big.length →
      StoreBlob s st uuidStr timestamp salt big =
        (st, .error (.errMsg "blob content exceeds maximum size of 262144 bytes"))) := by
  constructor
  · intro hlen hfresh
    have h1 : blob ≠ [] := by
      intro hnil
      rw [hnil] at hlen
      simp at hlen
    have h2 : blob.length ≤ maxBlobSize := by
      rw [hlen]
      decide
    rw [storeBlob_success st k k2 salt uuidStr timestamp blob h1 h2 hfresh]
  · intro s hbig
    have h1 : big ≠ [] := by
      intro hnil
      rw [hnil] at hbig
      simp at hbig
    have h2 : big.length > maxBlobSize :=
      Nat.lt_of_lt_of_le (by decide) hbig
    simp only [StoreBlob, if_neg h1, if_pos h2]

/-- Witness for C6: a blob of 262144 bytes of letter A is accepted into
the empty store, and one of 262145 bytes is rejected by an uninitialised
signer with the validation error. -/
theorem boundary_accept_exact_reject_above_witness :
    ((StoreBlob { privateKey := some 0, publicKey := some 0 } { rows := [] }
        sampleUUID sampleTimestamp 0 (List.replicate 262144 65)).2 =
      .ok sampleUUID) ∧
    (StoreBlob { privateKey := none, publicKey := none } { rows := [] }
        sampleUUID sampleTimestamp 0 (List.replicate 262145 65) =
      ({ rows := [] },
       .error (.errMsg "blob content exceeds maximum size of 262144 bytes"))) := by
  have h := boundary_accept_exact_reject_above { rows := [] } 0 0 0
    sampleUUID sampleTimestamp (List.replicate 262144 65) (List.replicate 262145 65)
  exact ⟨h.1 (List.length_replicate 262144 65) rfl,
         h.2 { privateKey := none, publicKey := none }
           (le_of_eq (List.length_replicate 262145 65).symm)⟩

/-- C3: storing any content of 1 to 262144 bytes under a fresh canonical
identifier and retrieving it by the returned identifier yields a response
whose content is the stored content, whose hash is the lowercase hex
SHA-256 of that content, and whose signature verifies with the service
key pair over the canonical serialization of the returned payload. -/
theorem store_then_get_round_trip
    (st : PostgresStorage) (k salt : Nat) (uuidStr timestamp blob : Bytes)
    (h1 : 1 ≤ blob.length) (h2 : blob.length ≤ 262144)
    (huuid : isCanonicalUUID uuidStr = true)
    (hfresh : st.rows.any (uuidMatches uuidStr) = false) :
    (StoreBlob { privateKey := some k, publicKey := some k } st
        uuidStr timestamp salt blob).2 = .ok uuidStr ∧
    ∃ resp,
      GetSignedBlob (StoreBlob { privateKey := some k, publicKey := some k } st
          uuidStr timestamp salt blob).1 uuidStr = .ok resp ∧
      resp.payload.blob = blob ∧
      resp.payload.hash = hexEncode (sha256 blob) ∧
      RSASignerService.VerifySignature { privateKey := some k, publicKey := some k }
        (protoMarshalBlobRecord resp.payload) resp.signature = .ok () := by
  have hne : blob ≠ [] := by
    intro hnil
    rw [hnil] at h1
    simp at h1
  have h2' : blob.length ≤ maxBlobSize := Nat.le_trans h2 (by decide)
  have hstore := storeBlob_success st k k salt uuidStr timestamp blob hne h2' hfresh
  refine ⟨by rw [hstore], ?_⟩
  rw [hstore]
  have hl : ∀ y ∈ st.rows, uuidMatches uuidStr y = false := by
    intro y hy
    cases hval : uuidMatches uuidStr y
    · rfl
    · have hany : st.rows.any (uuidMatches uuidStr) = true :=
        List.any_eq_true.mpr ⟨y, hy, hval⟩
      rw [hfresh] at hany
      cases hany
  have hx : uuidMatches uuidStr
      ({ payload := { uuid := uuidStr, blob := blob,
                      hash := hexEncode (sha256 blob), timestamp := timestamp },
         signature := rsaSignPSS k
           (sha256 (serviceSignedPayloadBytes uuidStr blob
             (hexEncode (sha256 blob)) timestamp)) salt } : SignedBlobRecord) = true := by
    simp [uuidMatches]
  have hfind := find?_append_singleton st.rows (uuidMatches uuidStr) _ hl hx
  refine ⟨{ payload := { uuid := uuidStr, blob := blob,
                         hash := hexEncode (sha256 blob), timestamp := timestamp },
            signature := rsaSignPSS k
              (sha256 (serviceSignedPayloadBytes uuidStr blob
                (hexEncode (sha256 blob)) timestamp)) salt }, ?_, rfl, rfl, ?_⟩
  · simp only [GetSignedBlob, if_neg (canonicalUUID_ne_nil uuidStr huuid),
      uuidParse_canonical uuidStr huuid, PostgresStorage.GetByUUID, hfind]
    simp [rsaSignPSS]
  · have hser : protoMarshalBlobRecord
        { uuid := uuidStr, blob := blob, hash := hexEncode (sha256 blob),
          timestamp := timestamp } ≠ [] :=
      protoMarshal_ne_nil _ hne
    simp [RSASignerService.VerifySignature, rsaSignPSS, rsaVerifyPSS, hser,
      serviceSignedPayloadBytes]

/-- Witness for C3: the two-byte content hi stored under the sample uuid
into the empty store round-trips with matching hash and a verifying
signature. -/
theorem store_then_get_round_trip_witness :
    (StoreBlob { privateKey := some 0, publicKey := some 0 } { rows := [] }
        sampleUUID sampleTimestamp 0 [104, 105]).2 = .ok sampleUUID ∧
    ∃ resp,
      GetSignedBlob (StoreBlob { privateKey := some 0, publicKey := some 0 }
          { rows := [] } sampleUUID sampleTimestamp 0 [104, 105]).1 sampleUUID =
        .ok resp ∧
      resp.payload.blob = [104, 105] ∧
      resp.payload.hash = hexEncode (sha256 [104, 105]) ∧
      RSASignerService.VerifySignature { privateKey := some 0, publicKey := some 0 }
        (protoMarshalBlobRecord resp.payload) resp.signature = .ok () :=
  store_then_get_round_trip { rows := [] } 0 0 sampleUUID sampleTimestamp
    [104, 105] (by decide) (by decide) (by decide) rfl
